import Mathlib

set_option linter.unusedVariables false

/-!
Verification development for the Analytics Agent ChatKit starter.

The client-side code is shallowly embedded from the TypeScript sources:
`app/components/ResultTable.tsx` (result formatting, the chat-page code-block
bridge), `app/(site)/data/page.tsx` (upload / manual-SQL handlers),
`components/ChatKitPanel.tsx` (skill-argument validation and the `record_fact`
client tool).  The `/api/sql` and `/api/ingest` route handlers are not part of
the available sources; the Query Guard and the Archive Ingestor / Catalog
Manager are therefore modelled from the specification (sections 4.1-4.4 and 8)
and every definition doing so is marked `Modelled from the spec`.

Opaque JavaScript primitives (the string produced by `String(number)`,
`Date.prototype.toISOString`, `JSON.stringify`, a compiled `RegExp`) are
embedded as carried data or as function-valued fields, as noted at each
definition.
-/

/-- A JavaScript runtime value as observed by the rendering helpers.
`vnumber`/`vbigint` carry the string produced by the JS `String(value)`
conversion, `vdate` carries the `toISOString()` representation and `vobject`
carries the attempted `JSON.stringify` result (`none` models a thrown
exception) together with the `String(value)` fallback, since those
conversions are opaque JS primitives. -/
inductive JsValue where
  | vnull
  | vundefined
  | vstring (s : String)
  | vnumber (str : String)
  | vbigint (str : String)
  | vbool (b : Bool)
  | vdate (iso : String)
  | varray (elems : List JsValue)
  | vobject (json : Option String) (str : String)

namespace ResultTable

mutual

/-- Embedding of `formatValue` from `app/components/ResultTable.tsx`:
null/undefined become the empty string, strings pass through, numbers and
bigints use `String(value)`, booleans become `"true"`/`"false"`, dates use
`toISOString()`, arrays are recursively formatted and comma-joined, and any
other object is `JSON.stringify`ed with a `String(value)` fallback on
exception. -/
def formatValue : JsValue → String
  | .vnull => ""
  | .vundefined => ""
  | .vstring s => s
  | .vnumber str => str
  | .vbigint str => str
  | .vbool b => if b then "true" else "false"
  | .vdate iso => iso
  | .varray elems => String.intercalate ", " (formatList elems)
  | .vobject json str =>
    match json with
    | some j => j
    | none => str

/-- Auxiliary recursion for `Array.prototype.map(formatValue)` inside
`formatValue`. -/
def formatList : List JsValue → List String
  | [] => []
  | v :: vs => formatValue v :: formatList vs

end

end ResultTable

namespace ChatPage

mutual

/-- Embedding of the `formatValue` closure defined inside the `ChatPage`
component in `app/components/ResultTable.tsx` (the chat-page code-block
renderer).  It is a second, textually identical copy of the ResultTable
helper. -/
def formatValue : JsValue → String
  | .vnull => ""
  | .vundefined => ""
  | .vstring s => s
  | .vnumber str => str
  | .vbigint str => str
  | .vbool b => if b then "true" else "false"
  | .vdate iso => iso
  | .varray elems => String.intercalate ", " (formatList elems)
  | .vobject json str =>
    match json with
    | some j => j
    | none => str

/-- Auxiliary recursion for `Array.prototype.map(formatValue)` inside the
chat-page copy of `formatValue`. -/
def formatList : List JsValue → List String
  | [] => []
  | v :: vs => formatValue v :: formatList vs

end

end ChatPage

/-- C5: the value-to-text coercion `formatValue` is a total Lean function
(totality is inherent in the definition), and it maps empty cells
(null/undefined) to the empty string, booleans to the strings `"true"` and
`"false"`, dates to their ISO-8601 representation (`toISOString`), and
numbers to their `String(value)` decimal representation. -/
theorem formatValue_coercion_spec :
    ResultTable.formatValue .vnull = ""
    ∧ ResultTable.formatValue .vundefined = ""
    ∧ (∀ b : Bool, ResultTable.formatValue (.vbool b) = if b then "true" else "false")
    ∧ (∀ iso : String, ResultTable.formatValue (.vdate iso) = iso)
    ∧ (∀ str : String, ResultTable.formatValue (.vnumber str) = str) := by
  refine ⟨rfl, rfl, ?_, ?_, ?_⟩ <;> intro x <;> rfl

theorem formatList_congrArg (l : List JsValue)
    (h : ∀ v ∈ l, ResultTable.formatValue v = ChatPage.formatValue v) :
    ResultTable.formatList l = ChatPage.formatList l := by
  induction l with
  | nil => rfl
  | cons v vs ih =>
    rw [ResultTable.formatList, ChatPage.formatList, h v (by simp),
      ih (fun w hw => h w (by simp [hw]))]

theorem formatValue_eq_of_sizeOf_le :
    ∀ n : Nat, ∀ v : JsValue, sizeOf v ≤ n →
      ResultTable.formatValue v = ChatPage.formatValue v := by
  intro n
  induction n with
  | zero =>
    intro v h
    exfalso
    cases v <;> simp at h
  | succ n ih =>
    intro v h
    cases v with
    | varray elems =>
      rw [ResultTable.formatValue, ChatPage.formatValue]
      have helems : sizeOf elems ≤ n := by
        have : sizeOf (JsValue.varray elems) = 1 + sizeOf elems := by simp
        omega
      have hmem : ∀ w ∈ elems, ResultTable.formatValue w = ChatPage.formatValue w := by
        intro w hw
        exact ih w (Nat.le_of_lt (Nat.lt_of_lt_of_le (List.sizeOf_lt_of_mem hw) helems))
      rw [formatList_congrArg elems hmem]
    | vnull => rfl
    | vundefined => rfl
    | vstring s => rfl
    | vnumber s => rfl
    | vbigint s => rfl
    | vbool b => rfl
    | vdate s => rfl
    | vobject json str => rfl

/-- C10: the `formatValue` helper of the `ResultTable` component and the
`formatValue` closure of the chat-page code-block renderer are extensionally
equal: they produce the same string on every input value. -/
theorem formatValue_resultTable_eq_chatPage :
    ∀ v : JsValue, ResultTable.formatValue v = ChatPage.formatValue v :=
  fun v => formatValue_eq_of_sizeOf_le (sizeOf v) v (Nat.le_refl _)

/-- Character-list prefix test, used to model JS `String.prototype.includes`
and `startsWith` without relying on library string search. -/
def listStartsWith : List Char → List Char → Bool
  | [], _ => true
  | _ :: _, [] => false
  | a :: as, b :: bs => a = b && listStartsWith as bs

/-- Character-list substring test: `listContainsSub needle haystack` is true
iff `needle` occurs contiguously inside `haystack`.  Models JS
`String.prototype.includes`. -/
def listContainsSub (needle : List Char) : List Char → Bool
  | [] => needle.isEmpty
  | a :: rest => listStartsWith needle (a :: rest) || listContainsSub needle rest

/-- The whitespace class of the JS `\s` regex class and `String.prototype.trim`
(space, tab, line terminators and the common Unicode space characters). -/
def jsWhitespace (c : Char) : Bool :=
  c = ' ' || c = '\t' || c = '\n' || c = '\r' || c = '\x0b' || c = '\x0c' ||
  c = ' ' || c = ' ' || c = ' ' || c = '﻿'

/-- Model of JS `String.prototype.trim`: drop leading and trailing
whitespace. -/
def jsTrim (s : String) : String :=
  String.mk (((s.toList.dropWhile jsWhitespace).reverse.dropWhile jsWhitespace).reverse)

/-- Model of `text.replace(/\s+/g, " ")`: each maximal whitespace run is
replaced by a single space.  The flag records whether the previous character
belonged to a whitespace run already emitted. -/
def collapseWs : List Char → Bool → List Char
  | [], _ => []
  | c :: rest, prevWs =>
    if jsWhitespace c then
      if prevWs then collapseWs rest true else ' ' :: collapseWs rest true
    else c :: collapseWs rest false

/-- Embedding of `text.replace(/\s+/g, " ").trim()` as used by the
`record_fact` client tool in `components/ChatKitPanel.tsx`. -/
def normalizeWsJs (s : String) : String :=
  jsTrim (String.mk (collapseWs s.toList false))

/-- The two fenced-code-block kinds the chat-page renderer dispatches on. -/
inductive BlockLang where
  | sql
  | vegaLite
deriving DecidableEq

/-- The observable state of a `<code>` element as far as the chat-page
code-block bridge reads it: the `data-language`/`data-lang` attributes, the
class attribute, the text content and the `data-analytics-processed`
marker. -/
structure CodeEl where
  dataLanguage : Option String
  dataLang : Option String
  className : String
  textContent : String
  analyticsProcessed : Bool
deriving DecidableEq

/-- Embedding of `detectLanguage` from the `ChatPage` component in
`app/components/ResultTable.tsx`: combine the `data-language` (falling back
to `data-lang`, then `""`) attribute with the class attribute, lowercase the
result, and classify as sql if it contains `"sql"`, else as vega-lite if it
contains `"vega-lite"` or `"vegalite"`, else as neither. -/
def detectLanguage (el : CodeEl) : Option BlockLang :=
  let dataLanguage := el.dataLanguage.getD (el.dataLang.getD "")
  let combined := (dataLanguage.toList ++ ' ' :: el.className.toList).map Char.toLower
  if listContainsSub "sql".toList combined then some .sql
  else if listContainsSub "vega-lite".toList combined
      || listContainsSub "vegalite".toList combined then some .vegaLite
  else none

/-- The side effect the chat-page bridge dispatches for a classified code
block: `runSql` models `handleSqlBlock` (the block text is POSTed to
`/api/sql` and the result table rendered inline below the block) and
`renderVega` models `handleVegaLiteBlock` (the text is parsed and handed to
`vega-embed`). -/
inductive BlockAction where
  | runSql (text : String)
  | renderVega (text : String)
deriving DecidableEq

/-- Embedding of `processCodeBlock` from the `ChatPage` component: skip
elements already marked `data-analytics-processed`, skip (and leave
untouched) elements whose language is not detected, and otherwise mark the
element processed and dispatch the matching handler with the element's
text. -/
def processCodeBlock (el : CodeEl) : CodeEl × Option BlockAction :=
  if el.analyticsProcessed then (el, none)
  else
    match detectLanguage el with
    | none => (el, none)
    | some .sql => ({ el with analyticsProcessed := true }, some (.runSql el.textContent))
    | some .vegaLite => ({ el with analyticsProcessed := true }, some (.renderVega el.textContent))

/-- C6: the chat-page renderer classifies each fenced code block by its
language/class attributes; an unprocessed block classified as sql is marked
processed and its text dispatched to the SQL handler (which queries the
endpoint and renders the result inline), an unprocessed vega-lite block is
dispatched to the chart handler, a block matching neither is left untouched
with no action, and reprocessing the element resulting from any dispatch
never yields a second action, so each element is processed at most once. -/
theorem processCodeBlock_spec (el : CodeEl) :
    (el.analyticsProcessed = false → detectLanguage el = some .sql →
      processCodeBlock el =
        ({ el with analyticsProcessed := true }, some (.runSql el.textContent)))
    ∧ (el.analyticsProcessed = false → detectLanguage el = some .vegaLite →
      processCodeBlock el =
        ({ el with analyticsProcessed := true }, some (.renderVega el.textContent)))
    ∧ (detectLanguage el = none → processCodeBlock el = (el, none))
    ∧ (processCodeBlock (processCodeBlock el).1).2 = none := by
  refine ⟨?_, ?_, ?_, ?_⟩
  · intro hproc hlang
    simp [processCodeBlock, hproc, hlang]
  · intro hproc hlang
    simp [processCodeBlock, hproc, hlang]
  · intro hlang
    cases hproc : el.analyticsProcessed <;> simp [processCodeBlock, hproc, hlang]
  · cases hproc : el.analyticsProcessed with
    | true => simp [processCodeBlock, hproc]
    | false =>
      cases hlang : detectLanguage el with
      | none => simp [processCodeBlock, hproc, hlang]
      | some lang =>
        cases lang <;> simp [processCodeBlock, hproc, hlang]

/-- Concrete sql-classified element used by the C6 witness. -/
def sqlCodeEl : CodeEl :=
  { dataLanguage := none
    dataLang := none
    className := "language-sql"
    textContent := "SELECT 1"
    analyticsProcessed := false }

theorem processCodeBlock_spec_witness :
    processCodeBlock sqlCodeEl =
      ({ sqlCodeEl with analyticsProcessed := true }, some (.runSql "SELECT 1")) :=
  (processCodeBlock_spec sqlCodeEl).1 rfl (by decide)

/-- The widget action passed to `onWidgetAction` by the `record_fact` client
tool in `components/ChatKitPanel.tsx` (`type` is always `"save"`). -/
structure FactAction where
  factId : String
  factText : String
deriving DecidableEq

/-- Embedding of the `record_fact` branch of `onClientTool` in
`components/ChatKitPanel.tsx`.  The state is the `processedFacts` ref (a set
of fact ids, modelled as a list).  `id`/`text` are the results of
`String(params.fact_id ?? "")` / `String(params.fact_text ?? "")`.  Returns
the new state, the `success` flag of the tool result, and the list of
`onWidgetAction` callback invocations performed. -/
def recordFactTool (processedFacts : List String) (id text : String) :
    List String × Bool × List FactAction :=
  if id = "" || processedFacts.contains id then (processedFacts, true, [])
  else (id :: processedFacts, true, [{ factId := id, factText := normalizeWsJs text }])

/-- Embedding of the `onThreadChange` handler in
`components/ChatKitPanel.tsx`: it clears the `processedFacts` set. -/
def onThreadChange (processedFacts : List String) : List String := []

/-- C9: the `record_fact` client tool is idempotent per fact id within a
thread: an invocation with an empty or already-processed id returns
`success: true` without invoking `onWidgetAction`; otherwise the id is
marked processed and `onWidgetAction` is invoked exactly once with the
whitespace-normalized fact text; a second invocation with the same id never
produces a callback; and a thread change clears the processed set. -/
theorem recordFactTool_spec (s : List String) (id text text2 : String) :
    (id = "" ∨ id ∈ s → recordFactTool s id text = (s, true, []))
    ∧ (id ≠ "" → id ∉ s →
      recordFactTool s id text =
        (id :: s, true, [{ factId := id, factText := normalizeWsJs text }]))
    ∧ (recordFactTool (recordFactTool s id text).1 id text2).2.2 = []
    ∧ onThreadChange s = [] := by
  refine ⟨?_, ?_, ?_, rfl⟩
  · intro h
    rcases h with h | h <;> simp [recordFactTool, h]
  · intro h1 h2
    simp [recordFactTool, h1, h2]
  · by_cases h1 : id = ""
    · simp [recordFactTool, h1]
    · by_cases h2 : id ∈ s
      · simp [recordFactTool, h1, h2]
      · simp [recordFactTool, h1, h2]

theorem recordFactTool_spec_witness :
    recordFactTool [] "fact-1" " a   b " = ([ "fact-1" ], true,
      [{ factId := "fact-1", factText := normalizeWsJs " a   b " }]) :=
  (recordFactTool_spec [] "fact-1" " a   b " "").2.1 (by decide) (by decide)

/-- A field descriptor `{ name, type }` as used across the client and the
query endpoint payloads. -/
structure TableField where
  name : String
  type : Option String
deriving DecidableEq

/-- A result row as the client sees it: a JSON object mapping field names to
values. -/
def JsRow : Type := List (String × JsValue)

/-- The client-side `SqlResult` shape of `app/(site)/data/page.tsx`. -/
structure SqlResult where
  fields : List TableField
  rows : List JsRow
  rowCount : Nat
  truncated : Bool

/-- The parsed `/api/sql` response body (`SqlResponse` in
`app/(site)/data/page.tsx`): every key optional, `none` models an absent
(undefined) JSON field. -/
structure SqlResponse where
  ok : Option Bool
  fields : Option (List TableField)
  rows : Option (List JsRow)
  rowCount : Option Nat
  truncated : Option Bool
  error : Option String
  details : Option String

/-- One `_catalog` entry as carried in the `/api/ingest` response
(`CatalogEntry` in `app/(site)/data/page.tsx`). -/
structure CatalogRow where
  table_name : String
  columns : String
  rows : Nat
deriving DecidableEq

/-- The parsed `/api/ingest` response body (`IngestResponse` in
`app/(site)/data/page.tsx`).  A body that fails to parse becomes `{}`, i.e.
`ok = false` (undefined is falsy) with no tables. -/
structure IngestResponse where
  ok : Bool
  tables : List CatalogRow
  error : Option String
deriving DecidableEq

/-- Embedding of `normalizeSqlResponse` from `app/(site)/data/page.tsx`:
missing fields/rows default to empty, `rowCount` defaults to the row-list
length (itself defaulting to 0), `truncated` defaults to false. -/
def normalizeSqlResponse (payload : SqlResponse) : SqlResult :=
  { fields := payload.fields.getD []
    rows := payload.rows.getD []
    rowCount := payload.rowCount.getD ((payload.rows.getD []).length)
    truncated := payload.truncated.getD false }

/-- Outcome of one run of the upload handler, as reflected in the page
state: either `uploadError` is set, or `uploadMessage` is set together with
the refreshed catalog result. -/
inductive UploadOutcome where
  | failure (uploadError : String)
  | success (uploadMessage : String) (catalog : SqlResult)

/-- The summary string built by `handleUpload` on success:
`Loaded ${n} table${n === 1 ? "" : "s"}.`. -/
def loadedMessage (n : Nat) : String :=
  "Loaded " ++ toString n ++ " table" ++ (if n = 1 then "" else "s") ++ "."

/-- Embedding of the response-handling part of `handleUpload` in
`app/(site)/data/page.tsx`: on `!response.ok || !json.ok` the thrown
message `json.error ?? "Ingest failed."` is caught and stored as the upload
error; otherwise the catalog result is rebuilt from the returned table list
and the summary message reports the number of tables. -/
def handleUpload (httpOk : Bool) (json : IngestResponse) : UploadOutcome :=
  if !httpOk || !json.ok then .failure (json.error.getD "Ingest failed.")
  else
    .success (loadedMessage json.tables.length)
      (normalizeSqlResponse
        { ok := none
          fields := some [{ name := "table_name", type := none },
            { name := "columns", type := none }, { name := "rows", type := none }]
          rows := some (json.tables.map (fun entry =>
            [("table_name", JsValue.vstring entry.table_name),
             ("columns", JsValue.vstring entry.columns),
             ("rows", JsValue.vnumber (toString entry.rows))]))
          rowCount := some json.tables.length
          truncated := some false
          error := none
          details := none })

/-- Outcome of one run of the manual-SQL handler, as reflected in the page
state. -/
inductive ManualSqlOutcome where
  | emptyInput (manualError : String)
  | failure (manualError : String)
  | success (result : SqlResult)

/-- JS truthiness of the optional `error` string (`json.error` in the guard
`!response.ok || json.error`): an empty string is falsy. -/
def errTruthy : Option String → Bool
  | some s => !(s = "")
  | none => false

/-- The JS nullish-coalescing chain `json.error ?? json.details ?? "Query
failed"`. -/
def errMessage (error details : Option String) : String :=
  match error with
  | some s => s
  | none =>
    match details with
    | some s => s
    | none => "Query failed"

/-- Embedding of `handleRunManualSql` in `app/(site)/data/page.tsx`: blank
input sets `Enter a query to run.`; otherwise the response decides: a
non-ok HTTP status or a truthy `error` field stores the
`error ?? details ?? "Query failed"` message as the inline manual error,
and a successful response stores the normalized result.  The handler is a
total function of its inputs (the session never crashes). -/
def handleRunManualSql (manualSql : String) (httpOk : Bool) (json : SqlResponse) :
    ManualSqlOutcome :=
  if jsTrim manualSql = "" then .emptyInput "Enter a query to run."
  else if !httpOk || errTruthy json.error then .failure (errMessage json.error json.details)
  else .success (normalizeSqlResponse json)

/-- C7: a successful upload response (HTTP ok with body `ok: true`) yields
the summary message `Loaded N table(s).` for N the number of returned
tables; a failed response carrying an error string surfaces exactly that
string as the inline upload error; and a failed manual SQL query surfaces
the response's error (or details) string inline, the handler being a total
function (no crash). -/
theorem uploadAndManualSql_surface_messages (httpOk : Bool) (json : IngestResponse)
    (sql : String) (qHttpOk : Bool) (qjson : SqlResponse) :
    (httpOk = true → json.ok = true →
      handleUpload httpOk json =
        .success (loadedMessage json.tables.length)
          (normalizeSqlResponse
            { ok := none
              fields := some [{ name := "table_name", type := none },
                { name := "columns", type := none }, { name := "rows", type := none }]
              rows := some (json.tables.map (fun entry =>
                [("table_name", JsValue.vstring entry.table_name),
                 ("columns", JsValue.vstring entry.columns),
                 ("rows", JsValue.vnumber (toString entry.rows))]))
              rowCount := some json.tables.length
              truncated := some false
              error := none
              details := none }))
    ∧ ((httpOk = false ∨ json.ok = false) → ∀ e, json.error = some e →
      handleUpload httpOk json = .failure e)
    ∧ (jsTrim sql ≠ "" → (qHttpOk = false ∨ errTruthy qjson.error = true) →
      handleRunManualSql sql qHttpOk qjson =
        .failure (errMessage qjson.error qjson.details)) := by
  refine ⟨?_, ?_, ?_⟩
  · intro h1 h2
    simp [handleUpload, h1, h2]
  · intro h e he
    rcases h with h | h <;> simp [handleUpload, h, he]
  · intro h1 h2
    rcases h2 with h2 | h2 <;> simp [handleRunManualSql, h1, h2]

theorem uploadAndManualSql_surface_messages_witness :
    handleUpload true { ok := true, tables := [{ table_name := "t1", columns := "a, b", rows := 2 }], error := none } =
      .success (loadedMessage 1)
        (normalizeSqlResponse
          { ok := none
            fields := some [{ name := "table_name", type := none },
              { name := "columns", type := none }, { name := "rows", type := none }]
            rows := some ([{ table_name := "t1", columns := "a, b", rows := 2 }].map
              (fun entry : CatalogRow =>
                [("table_name", JsValue.vstring entry.table_name),
                 ("columns", JsValue.vstring entry.columns),
                 ("rows", JsValue.vnumber (toString entry.rows))]))
            rowCount := some 1
            truncated := some false
            error := none
            details := none }) :=
  (uploadAndManualSql_surface_messages true
    { ok := true, tables := [{ table_name := "t1", columns := "a, b", rows := 2 }], error := none }
    "" true
    { ok := none, fields := none, rows := none, rowCount := none,
      truncated := none, error := none, details := none }).1 rfl rfl

/-- A `ClaudeSkillPrimitive` (`lib/claude-skills/types.ts`): string, number
or boolean.  JS numbers are modelled as rationals; only finite numbers ever
inhabit this type, matching `isPrimitive` in `lib/claude-skills/index.ts`. -/
inductive SkillPrim where
  | str (s : String)
  | num (q : Rat)
  | bool (b : Bool)
deriving DecidableEq

/-- The declared type of a skill argument (`ClaudeSkillArgumentType`). -/
inductive SkillArgType where
  | string
  | number
  | boolean
deriving DecidableEq

/-- A raw JS value supplied for one skill argument.  `vnonfinite` is a value
with `typeof === "number"` that is not finite (NaN or an infinity), carrying
its `String(value)` representation; `vother` is any other value (object,
array, function, symbol). -/
inductive SkillArgValue where
  | vstr (s : String)
  | vnum (q : Rat)
  | vnonfinite (str : String)
  | vbool (b : Bool)
  | vnull
  | vundefined
  | vother
deriving DecidableEq

/-- A `ClaudeSkillArgumentSchema` (`lib/claude-skills/types.ts`).  The
`pattern` field models the compiled `new RegExp(schema.pattern)` as the
predicate `RegExp.prototype.test`, since regex compilation is an opaque JS
primitive. -/
structure SkillArgSchema where
  type : SkillArgType
  required : Bool := false
  default : Option SkillPrim := none
  enum : Option (List SkillPrim) := none
  minimum : Option Rat := none
  maximum : Option Rat := none
  pattern : Option (String → Bool) := none

/-- The raw `invocation.params.arguments` value: either not a plain object
(string, array, null, undefined, ...) or an object given as an association
list of own properties (a property may be explicitly `undefined`). -/
inductive RawSkillArgs where
  | notObject
  | obj (entries : List (String × SkillArgValue))

/-- The result type of `validateClaudeSkillArguments`
(`SkillArgumentValidationResult` in `components/ChatKitPanel.tsx`). -/
inductive SkillValidation where
  | ok (args : List (String × SkillPrim))
  | err (msg : String)

/-- Whether a validation result is `{ ok: true }`. -/
def SkillValidation.isOk : SkillValidation → Bool
  | .ok _ => true
  | .err _ => false

/-- Model of the JS `String(value)` conversion for a finite number, used by
`coerceClaudeSkillValue` when coercing a number to a string.  The canonical
`Rat` printing stands in for JS number formatting. -/
def jsNumToString (q : Rat) : String := toString q

/-- Fold a digit list into a natural number. -/
def digitsToNat (ds : List Char) : Nat :=
  ds.foldl (fun acc c => acc * 10 + (c.toNat - '0'.toNat)) 0

/-- Model of the JS `Number(string)` conversion as used by
`coerceClaudeSkillValue` (the caller guarantees the trimmed string is
nonempty): an optional sign followed by decimal digits with an optional
fractional part.  Exponent/hex forms and non-numeric strings map to `none`
(JS `NaN`, which `Number.isFinite` rejects). -/
def jsParseNumber (s : String) : Option Rat :=
  let l := (jsTrim s).toList
  let signed : Bool × List Char :=
    match l with
    | '-' :: r => (true, r)
    | '+' :: r => (false, r)
    | r => (false, r)
  let intPart := signed.2.takeWhile Char.isDigit
  let afterInt := signed.2.dropWhile Char.isDigit
  let body : Option Rat :=
    match afterInt with
    | [] => if intPart.isEmpty then none else some (digitsToNat intPart : Rat)
    | '.' :: frac =>
      let fracDigits := frac.takeWhile Char.isDigit
      let afterFrac := frac.dropWhile Char.isDigit
      if !afterFrac.isEmpty then none
      else if intPart.isEmpty && fracDigits.isEmpty then none
      else some ((digitsToNat intPart : Rat) +
        (digitsToNat fracDigits : Rat) / ((10 : Rat) ^ fracDigits.length))
    | _ => none
  body.map (fun q => if signed.1 then -q else q)

/-- Embedding of `coerceClaudeSkillValue` from `components/ChatKitPanel.tsx`:
for a string schema, strings pass through and numbers/booleans are
stringified; for a number schema, finite numbers pass through and nonblank
strings are parsed with `Number` (kept only when finite); for a boolean
schema, booleans pass through, trimmed lowercased strings in
`true/1/yes/y` / `false/0/no/n` map to the corresponding boolean, and the
numbers 1 and 0 map to true and false.  Everything else is `none`
(undefined). -/
def coerceClaudeSkillValue (schema : SkillArgSchema) (value : SkillArgValue) :
    Option SkillPrim :=
  match schema.type with
  | .string =>
    match value with
    | .vstr s => some (.str s)
    | .vnum q => some (.str (jsNumToString q))
    | .vnonfinite str => some (.str str)
    | .vbool b => some (.str (if b then "true" else "false"))
    | _ => none
  | .number =>
    match value with
    | .vnum q => some (.num q)
    | .vstr s =>
      if jsTrim s = "" then none
      else (jsParseNumber s).map SkillPrim.num
    | _ => none
  | .boolean =>
    match value with
    | .vbool b => some (.bool b)
    | .vstr s =>
      let normalized := (jsTrim s).toList.map Char.toLower
      if ["true", "1", "yes", "y"].any (fun w => w.toList = normalized) then some (.bool true)
      else if ["false", "0", "no", "n"].any (fun w => w.toList = normalized) then some (.bool false)
      else none
    | .vnum q =>
      if q = 1 then some (.bool true)
      else if q = 0 then some (.bool false)
      else none
    | _ => none

/-- The display name of a schema type, as interpolated into the `must be a
...` error message. -/
def SkillArgType.displayName : SkillArgType → String
  | .string => "string"
  | .number => "number"
  | .boolean => "boolean"

/-- The display string of a primitive, as produced by `String(value)` in the
enum error message. -/
def SkillPrim.displayString : SkillPrim → String
  | .str s => s
  | .num q => jsNumToString q
  | .bool b => if b then "true" else "false"

/-- `Object.prototype.hasOwnProperty.call(provided, name)`. -/
def hasOwnKey (provided : List (String × SkillArgValue)) (name : String) : Bool :=
  provided.any (fun p => p.1 = name)

/-- `provided[name]` for a key known to be present (first occurrence). -/
def lookupKey (provided : List (String × SkillArgValue)) (name : String) : SkillArgValue :=
  match provided.find? (fun p => p.1 = name) with
  | some p => p.2
  | none => .vundefined

/-- The `value` bound in the loop body of `validateClaudeSkillArguments`:
the explicitly provided value if the key is present, otherwise
`schema.default` (absent default = undefined). -/
def suppliedValue (provided : List (String × SkillArgValue)) (name : String)
    (schema : SkillArgSchema) : SkillArgValue :=
  if hasOwnKey provided name then lookupKey provided name
  else
    match schema.default with
    | some (.str s) => .vstr s
    | some (.num q) => .vnum q
    | some (.bool b) => .vbool b
    | none => .vundefined

/-- `value === undefined || value === null`. -/
def isNullish : SkillArgValue → Bool
  | .vundefined => true
  | .vnull => true
  | _ => false

/-- The body of the `for (const [name, schema] of Object.entries(schemas))`
loop in `validateClaudeSkillArguments`, for one entry: either an error
message (early return), or `none` (optional argument skipped), or the
normalized value to record. -/
def checkSkillEntry (provided : List (String × SkillArgValue)) (name : String)
    (schema : SkillArgSchema) : Except String (Option SkillPrim) :=
  let value := suppliedValue provided name schema
  if isNullish value then
    if schema.required then .error ("Missing required argument \"" ++ name ++ "\".")
    else .ok none
  else
    match coerceClaudeSkillValue schema value with
    | none =>
      .error ("Argument \"" ++ name ++ "\" must be a " ++ schema.type.displayName ++ ".")
    | some normalized =>
      if (match schema.enum with
          | some es => !es.contains normalized
          | none => false) then
        .error ("Argument \"" ++ name ++ "\" must be one of: " ++
          String.intercalate ", "
            ((schema.enum.getD []).map SkillPrim.displayString) ++ ".")
      else if (match schema.type, normalized, schema.minimum with
          | .number, .num q, some m => decide (q < m)
          | _, _, _ => false) then
        .error ("Argument \"" ++ name ++ "\" must be greater than or equal to " ++
          jsNumToString (schema.minimum.getD 0) ++ ".")
      else if (match schema.type, normalized, schema.maximum with
          | .number, .num q, some m => decide (m < q)
          | _, _, _ => false) then
        .error ("Argument \"" ++ name ++ "\" must be less than or equal to " ++
          jsNumToString (schema.maximum.getD 0) ++ ".")
      else if (match schema.type, normalized, schema.pattern with
          | .string, .str s, some test => !test s
          | _, _, _ => false) then
        .error ("Argument \"" ++ name ++ "\" must match its pattern.")
      else if (match schema.type, normalized with
          | .string, .str s => schema.required && jsTrim s = ""
          | _, _ => false) then
        .error ("Argument \"" ++ name ++ "\" cannot be empty.")
      else .ok (some normalized)

/-- The loop of `validateClaudeSkillArguments` over `Object.entries(schemas)`
in declaration order, accumulating the `resolved` record (kept reversed and
restored at the end). -/
def validateSkillLoop (provided : List (String × SkillArgValue)) :
    List (String × SkillArgSchema) → List (String × SkillPrim) → SkillValidation
  | [], acc => .ok acc.reverse
  | (name, schema) :: rest, acc =>
    match checkSkillEntry provided name schema with
    | .error e => .err e
    | .ok none => validateSkillLoop provided rest acc
    | .ok (some normalized) => validateSkillLoop provided rest ((name, normalized) :: acc)

/-- Embedding of `validateClaudeSkillArguments` from
`components/ChatKitPanel.tsx`.  `schemas` is `skill.arguments` as an
association list in declaration order (`[]` models both an absent and an
empty `arguments` record).  A non-object `raw` yields a null
`providedObject`; with no schemas a non-empty provided object is rejected,
otherwise the per-entry loop runs with `provided = providedObject ?? {}`.
Provided keys without a schema are only logged, never rejected. -/
def validateClaudeSkillArguments (schemas : List (String × SkillArgSchema))
    (raw : RawSkillArgs) : SkillValidation :=
  let providedObject : Option (List (String × SkillArgValue)) :=
    match raw with
    | .obj entries => some entries
    | .notObject => none
  if schemas.isEmpty then
    match providedObject with
    | some entries =>
      if entries.isEmpty then .ok [] else .err "This skill does not accept arguments."
    | none => .ok []
  else
    validateSkillLoop (providedObject.getD []) schemas []

/-- Whether a check-entry result is not an early error return. -/
def skillEntryPasses (provided : List (String × SkillArgValue)) (name : String)
    (schema : SkillArgSchema) : Bool :=
  match checkSkillEntry provided name schema with
  | .ok _ => true
  | .error _ => false

/-- Claim-side condition: the coerced value satisfies a declared enum. -/
def satisfiesEnum (schema : SkillArgSchema) (p : SkillPrim) : Bool :=
  match schema.enum with
  | some es => es.contains p
  | none => true

/-- Claim-side condition: a number-typed value satisfies a declared
minimum. -/
def satisfiesMinimum (schema : SkillArgSchema) (p : SkillPrim) : Bool :=
  match schema.type, p, schema.minimum with
  | .number, .num q, some m => decide (m ≤ q)
  | _, _, _ => true

/-- Claim-side condition: a number-typed value satisfies a declared
maximum. -/
def satisfiesMaximum (schema : SkillArgSchema) (p : SkillPrim) : Bool :=
  match schema.type, p, schema.maximum with
  | .number, .num q, some m => decide (q ≤ m)
  | _, _, _ => true

/-- Claim-side condition: a string-typed value satisfies a declared
pattern. -/
def satisfiesPattern (schema : SkillArgSchema) (p : SkillPrim) : Bool :=
  match schema.type, p, schema.pattern with
  | .string, .str s, some test => test s
  | _, _, _ => true

/-- Claim-side condition: a required string argument is non-blank after
trimming. -/
def requiredNonBlank (schema : SkillArgSchema) (p : SkillPrim) : Bool :=
  match schema.type, p with
  | .string, .str s => !schema.required || !(jsTrim s = "")
  | _, _ => true

/-- Claim-side acceptance condition for one declared argument: if required,
a value must be supplied (explicitly or via the default); and any supplied
(non-nullish) value must coerce to the declared primitive type and satisfy
the declared enum, minimum, maximum and pattern constraints, with required
strings non-blank after trimming. -/
def claimEntryOk (provided : List (String × SkillArgValue)) (name : String)
    (schema : SkillArgSchema) : Bool :=
  let v := suppliedValue provided name schema
  (!schema.required || !isNullish v)
  && (isNullish v ||
    match coerceClaudeSkillValue schema v with
    | none => false
    | some p =>
      satisfiesEnum schema p && satisfiesMinimum schema p && satisfiesMaximum schema p
        && satisfiesPattern schema p && requiredNonBlank schema p)

/-- Claim-side acceptance condition of C8 as a whole: with no declared
schemas the provided argument object must be absent or empty; with schemas,
every declared argument must pass `claimEntryOk`.  Undeclared provided keys
are not consulted. -/
def claimAcceptsSkillArguments (schemas : List (String × SkillArgSchema))
    (raw : RawSkillArgs) : Bool :=
  if schemas.isEmpty then
    match raw with
    | .notObject => true
    | .obj entries => entries.isEmpty
  else
    schemas.all (fun e =>
      claimEntryOk (match raw with | .obj l => l | .notObject => []) e.1 e.2)

theorem skillEntryPasses_eq_claimEntryOk (provided : List (String × SkillArgValue))
    (name : String) (schema : SkillArgSchema) :
    skillEntryPasses provided name schema = claimEntryOk provided name schema := by
  obtain ⟨ty, req, dflt, en, mi, ma, pat⟩ := schema
  unfold skillEntryPasses checkSkillEntry claimEntryOk
  cases hnull : isNullish (suppliedValue provided name ⟨ty, req, dflt, en, mi, ma, pat⟩)
  · cases hco : coerceClaudeSkillValue ⟨ty, req, dflt, en, mi, ma, pat⟩
      (suppliedValue provided name ⟨ty, req, dflt, en, mi, ma, pat⟩) with
    | none => cases req <;> simp [hnull, hco]
    | some p =>
      cases ty <;> cases p <;> cases en <;> cases mi <;> cases ma <;> cases pat <;> cases req <;>
        simp [hnull, hco, satisfiesEnum, satisfiesMinimum, satisfiesMaximum,
          satisfiesPattern, requiredNonBlank, not_lt] <;>
        (try (split_ifs <;> simp_all [not_lt, not_le]))
  · cases req <;> simp [hnull]

theorem validateSkillLoop_isOk (provided : List (String × SkillArgValue)) :
    ∀ (schemas : List (String × SkillArgSchema)) (acc : List (String × SkillPrim)),
      (validateSkillLoop provided schemas acc).isOk =
        schemas.all (fun e => skillEntryPasses provided e.1 e.2) := by
  intro schemas
  induction schemas with
  | nil => intro acc; rfl
  | cons hd tl ih =>
    intro acc
    rw [validateSkillLoop]
    rw [List.all_cons]
    cases hchk : checkSkillEntry provided hd.1 hd.2 with
    | error e => simp [SkillValidation.isOk, skillEntryPasses, hchk]
    | ok r =>
      cases r with
      | none => simp [skillEntryPasses, hchk, ih]
      | some p => simp [skillEntryPasses, hchk, ih]

/-- C8: skill-argument validation returns `ok: true` exactly under the
claimed conditions — with no declared schemas iff the provided argument
object is absent or empty, and with schemas iff every required argument is
present (explicitly or via its default) and every supplied value coerces to
its declared primitive type and satisfies the declared enum / minimum /
maximum / pattern constraints with required strings non-blank after
trimming.  In every other case the result is `ok: false` carrying an error
message (the `err` constructor), and provided keys without a declared
schema are never consulted, hence ignored rather than rejected. -/
theorem validateClaudeSkillArguments_ok_iff_claim
    (schemas : List (String × SkillArgSchema)) (raw : RawSkillArgs) :
    (validateClaudeSkillArguments schemas raw).isOk =
      claimAcceptsSkillArguments schemas raw := by
  unfold validateClaudeSkillArguments claimAcceptsSkillArguments
  cases hempty : schemas.isEmpty
  · simp only [hempty, Bool.false_eq_true, if_false]
    rw [validateSkillLoop_isOk]
    cases raw with
    | notObject =>
      simp [skillEntryPasses_eq_claimEntryOk]
    | obj entries =>
      simp [skillEntryPasses_eq_claimEntryOk]
  · cases raw with
    | notObject => simp [hempty, SkillValidation.isOk]
    | obj entries =>
      cases hent : entries.isEmpty <;>
        simp [hempty, hent, SkillValidation.isOk]

/-- A query-result row at the query endpoint (storage is all-text). -/
def SqlRow : Type := List String

/-- The process-wide analytical store: data tables plus the `_catalog`
metadata table, keyed by table name. -/
structure AnalyticsStore where
  tables : List (String × List SqlRow)

/-- Modelled from the spec: the query row cap of the Query Guard in the
`/api/sql` route handler, which is not among the available sources
(spec section 4.4 and the `MAX_ROWS` client constant): 50,000. -/
def MAX_ROWS : Nat := 50000

/-- Modelled from the spec: the write/DDL/DML keyword list the Query Guard
of the missing `/api/sql` route rejects (spec sections 4.4 and 8). -/
def bannedKeywords : List String :=
  ["INSERT", "UPDATE", "DELETE", "DROP", "ALTER", "CREATE", "ATTACH", "COPY", "PRAGMA"]

/-- Case-insensitive keyword scan: true iff some banned keyword occurs at
any position of the uppercased statement. -/
def containsBannedKeyword (sql : String) : Bool :=
  bannedKeywords.any (fun kw => listContainsSub kw.toList (sql.toList.map Char.toUpper))

/-- Case-insensitive prefix test against an uppercase keyword. -/
def startsWithKeyword (kw : String) (body : List Char) : Bool :=
  listStartsWith kw.toList (body.map Char.toUpper)

/-- Modelled from the spec: the static validation of the Query Guard in the
missing `/api/sql` route (spec section 4.4): non-empty after trimming and
stripping trailing statement separators, classified as a `SELECT` or
`WITH ... SELECT` statement, free of write/DDL/DML keywords, and free of
multi-statement separator chains (fail closed). -/
def sqlGuardValidate (sql : String) : Bool :=
  let body := ((jsTrim sql).toList.reverse.dropWhile
    (fun c => jsWhitespace c || c = ';')).reverse
  !body.isEmpty
    && (startsWithKeyword "SELECT" body || startsWithKeyword "WITH" body)
    && !containsBannedKeyword sql
    && !body.contains ';'

/-- Errors of the Query Guard (spec section 4.4 taxonomy). -/
inductive QueryError where
  | validationRejected
  | timeout
  | executionError (msg : String)
deriving DecidableEq

/-- The query-endpoint result payload (spec section 6). -/
structure QueryResult where
  fields : List TableField
  rows : List SqlRow
  rowCount : Nat
  truncated : Bool

/-- Modelled from the spec: the row-cap stage of the Query Guard execution
(spec section 4.4): of the underlying result set, the first 50,000 rows are
returned, `rowCount` reports the true match count, and `truncated` is set
iff more rows matched than the cap. -/
def capQueryRows (fields : List TableField) (allRows : List SqlRow) : QueryResult :=
  { fields := fields
    rows := allRows.take MAX_ROWS
    rowCount := allRows.length
    truncated := decide (allRows.length > MAX_ROWS) }

/-- Modelled from the spec: `execute(sqlText)` of the Query Guard in the
missing `/api/sql` route (spec section 4.4): validate first and fail closed
with `ValidationRejected` without touching the store; only a validated
statement is run, through the engine `run` (kept universally quantified so
the theorem covers every execution semantics), and its result set is row
capped.  The returned store witnesses any side effect of execution. -/
def queryGuardExecute
    (run : AnalyticsStore → String → (List TableField × List SqlRow) × AnalyticsStore)
    (store : AnalyticsStore) (sql : String) :
    Except QueryError QueryResult × AnalyticsStore :=
  if sqlGuardValidate sql then
    let out := run store sql
    (.ok (capQueryRows out.1.1 out.1.2), out.2)
  else (.error .validationRejected, store)

/-- C1: spec-modelled.  For every SQL string containing one of the
write/DDL/DML keywords (any letter case, any position) and every execution
semantics `run`, the Query Guard's execute returns `ValidationRejected` and
returns the store unchanged — the statement is never executed, so no table
is created, modified or dropped. -/
theorem queryGuard_rejects_banned_keywords
    (run : AnalyticsStore → String → (List TableField × List SqlRow) × AnalyticsStore)
    (store : AnalyticsStore) (sql : String)
    (h : ∃ kw ∈ bannedKeywords, listContainsSub kw.toList (sql.toList.map Char.toUpper) = true) :
    queryGuardExecute run store sql = (.error .validationRejected, store) := by
  have hban : containsBannedKeyword sql = true := by
    rcases h with ⟨kw, hkw, hsub⟩
    unfold containsBannedKeyword
    exact List.any_eq_true.mpr ⟨kw, hkw, hsub⟩
  unfold queryGuardExecute sqlGuardValidate
  simp [hban]

/-- A trivial engine used by witnesses: returns no rows and leaves the
store unchanged. -/
def noopEngine : AnalyticsStore → String → (List TableField × List SqlRow) × AnalyticsStore :=
  fun store _ => (([], []), store)

theorem queryGuard_rejects_banned_keywords_witness :
    queryGuardExecute noopEngine { tables := [("t", [])] } "drop table t" =
      (.error .validationRejected, { tables := [("t", [])] }) :=
  queryGuard_rejects_banned_keywords noopEngine { tables := [("t", [])] } "drop table t"
    ⟨"DROP", by decide, by decide⟩

/-- C2: spec-modelled.  For every validated SELECT/WITH statement and
every engine result set of R rows, the endpoint returns `.ok` with a result
whose row list has length `min rowCount MAX_ROWS`, whose `truncated` flag is
true iff R > 50,000, with `truncated = false` and `rowCount = R` when
R ≤ 50,000, and exactly 50,000 returned rows with `truncated = true` when
R > 50,000. -/
theorem queryGuard_row_cap
    (run : AnalyticsStore → String → (List TableField × List SqlRow) × AnalyticsStore)
    (store : AnalyticsStore) (sql : String) (hvalid : sqlGuardValidate sql = true) :
    queryGuardExecute run store sql =
      (.ok (capQueryRows (run store sql).1.1 (run store sql).1.2), (run store sql).2)
    ∧ (capQueryRows (run store sql).1.1 (run store sql).1.2).rows.length =
      min (capQueryRows (run store sql).1.1 (run store sql).1.2).rowCount MAX_ROWS
    ∧ ((capQueryRows (run store sql).1.1 (run store sql).1.2).truncated = true ↔
      (run store sql).1.2.length > MAX_ROWS)
    ∧ ((run store sql).1.2.length ≤ MAX_ROWS →
      (capQueryRows (run store sql).1.1 (run store sql).1.2).truncated = false
      ∧ (capQueryRows (run store sql).1.1 (run store sql).1.2).rowCount =
        (run store sql).1.2.length)
    ∧ ((run store sql).1.2.length > MAX_ROWS →
      (capQueryRows (run store sql).1.1 (run store sql).1.2).rows.length = MAX_ROWS
      ∧ (capQueryRows (run store sql).1.1 (run store sql).1.2).truncated = true) := by
  refine ⟨?_, ?_, ?_, ?_, ?_⟩
  · unfold queryGuardExecute
    simp [hvalid]
  · simp [capQueryRows, List.length_take, Nat.min_comm]
  · simp [capQueryRows]
  · intro hle
    constructor
    · simp [capQueryRows]
      omega
    · simp [capQueryRows]
  · intro hgt
    constructor
    · simp [capQueryRows, List.length_take]
      omega
    · simp [capQueryRows]
      omega

/-- A three-row engine used by the C2 witness. -/
def threeRowEngine : AnalyticsStore → String → (List TableField × List SqlRow) × AnalyticsStore :=
  fun store _ => (([{ name := "n", type := some "VARCHAR" }], [["a"], ["b"], ["c"]]), store)

theorem queryGuard_row_cap_witness :
    (capQueryRows (threeRowEngine { tables := [] } "SELECT 1").1.1
        (threeRowEngine { tables := [] } "SELECT 1").1.2).truncated = false
    ∧ (capQueryRows (threeRowEngine { tables := [] } "SELECT 1").1.1
        (threeRowEngine { tables := [] } "SELECT 1").1.2).rowCount =
      (threeRowEngine { tables := [] } "SELECT 1").1.2.length :=
  (queryGuard_row_cap threeRowEngine { tables := [] } "SELECT 1"
    (by decide)).2.2.2.1 (by decide)

/-- Modelled from the spec: the global ingestion row cap of the missing
`/api/ingest` route (spec sections 4.1 and 6): about 2,000,000 rows summed
across all sheets of one run. -/
def INGEST_ROW_CAP : Nat := 2000000

/-- One worksheet extracted from an uploaded archive: its name, its header
row and its data rows (already text-coerced by the Schema Normalizer). -/
structure Sheet where
  name : String
  header : List String
  rows : List SqlRow

/-- A `_catalog` entry (spec section 3): table name, display column list,
row count. -/
structure CatalogEntry where
  table_name : String
  columns : String
  rows : Nat
deriving DecidableEq

/-- The ingestion-side store: materialized data tables plus the `_catalog`
metadata rows. -/
structure IngestStore where
  tables : List (String × List SqlRow)
  catalog : List CatalogEntry

/-- Replace-or-append upsert on an association list keyed by table name. -/
def upsertTable (name : String) (rows : List SqlRow) :
    List (String × List SqlRow) → List (String × List SqlRow)
  | [] => [(name, rows)]
  | (k, w) :: rest =>
    if k = name then (name, rows) :: rest else (k, w) :: upsertTable name rows rest

/-- Replace-or-append upsert of a catalog entry keyed by `table_name`
(spec section 4.3: `upsert` is the only path that mutates the catalog). -/
def upsertCatalog (e : CatalogEntry) : List CatalogEntry → List CatalogEntry
  | [] => [e]
  | c :: rest =>
    if c.table_name = e.table_name then e :: rest else c :: upsertCatalog e rest

/-- Modelled from the spec: table-name sanitization (spec section 3:
sanitized to a safe identifier) — non-alphanumeric characters are replaced
by underscores. -/
def sanitizeIdent (s : String) : String :=
  String.mk (s.toList.map (fun c => if c.isAlphanum then c else '_'))

/-- Modelled from the spec: the per-sheet transactional write of the
missing `/api/ingest` route (spec section 4.1 rule 4): the sheet's table
and its catalog upsert happen together — either both or neither. -/
def writeSheet (store : IngestStore) (name : String) (columns : String)
    (rows : List SqlRow) : IngestStore :=
  { tables := upsertTable name rows store.tables
    catalog := upsertCatalog { table_name := name, columns := columns, rows := rows.length }
      store.catalog }

/-- Modelled from the spec: the per-sheet loop of the Archive Ingestor in
the missing `/api/ingest` route (spec section 4.1 rules 2-3): sheets are
processed in archive order; each sheet contributes rows only up to the
remaining global row budget; once the budget is exhausted the remaining
sheets are not processed.  Returns the final store and the catalog entries
produced by this run. -/
def ingestSheets (store : IngestStore) (budget : Nat) :
    List Sheet → IngestStore × List CatalogEntry
  | [] => (store, [])
  | sheet :: rest =>
    if budget = 0 then (store, [])
    else
      let takenRows := sheet.rows.take budget
      let name := sanitizeIdent sheet.name
      let columns := String.intercalate ", " sheet.header
      let store1 := writeSheet store name columns takenRows
      let next := ingestSheets store1 (budget - takenRows.length) rest
      (next.1, { table_name := name, columns := columns, rows := takenRows.length } :: next.2)

/-- The `/api/ingest` response shape (spec section 6). -/
structure IngestRunResponse where
  ok : Bool
  tables : List CatalogEntry
  error : Option String

/-- Modelled from the spec: one whole ingestion run of the missing
`/api/ingest` route (spec sections 4.1 and 7): process the sheets under the
global row cap; the run reports `ok: true` with the produced (possibly
partial) table list, and fails as a whole only when zero tables were
produced. -/
def ingestRun (store : IngestStore) (sheets : List Sheet) :
    IngestStore × IngestRunResponse :=
  let out := ingestSheets store INGEST_ROW_CAP sheets
  (out.1,
    { ok := !out.2.isEmpty
      tables := out.2
      error := if out.2.isEmpty then some "No tables were ingested." else none })

/-- Total row count of an archive (summed across sheets). -/
def totalRows (sheets : List Sheet) : Nat :=
  (sheets.map (fun s => s.rows.length)).sum

/-- Summed row counts of the produced catalog entries. -/
def sumEntryRows (entries : List CatalogEntry) : Nat :=
  (entries.map (fun e => e.rows)).sum

/-- Names of the materialized data tables of a store. -/
def tableNames (store : IngestStore) : List String :=
  store.tables.map Prod.fst

/-- Names recorded in the `_catalog` of a store. -/
def catalogNames (store : IngestStore) : List String :=
  store.catalog.map (fun e => e.table_name)

theorem mem_upsertTable_names (name : String) (rows : List SqlRow) (n : String) :
    ∀ l : List (String × List SqlRow),
      (n ∈ (upsertTable name rows l).map Prod.fst ↔ n = name ∨ n ∈ l.map Prod.fst) := by
  intro l
  induction l with
  | nil => simp [upsertTable]
  | cons hd tl ih =>
    by_cases h : hd.1 = name
    · obtain ⟨k, w⟩ := hd
      simp only at h
      simp [upsertTable, h]
    · obtain ⟨k, w⟩ := hd
      simp only at h
      simp [upsertTable, h, ih]
      (try tauto)

theorem mem_upsertCatalog_names (e : CatalogEntry) (n : String) :
    ∀ l : List CatalogEntry,
      (n ∈ (upsertCatalog e l).map (fun c => c.table_name) ↔
        n = e.table_name ∨ n ∈ l.map (fun c => c.table_name)) := by
  intro l
  induction l with
  | nil => simp [upsertCatalog]
  | cons hd tl ih =>
    by_cases h : hd.table_name = e.table_name
    · simp [upsertCatalog, h]
    · simp [upsertCatalog, h, ih]
      (try tauto)

theorem ingestSheets_budget (sheets : List Sheet) :
    ∀ (store : IngestStore) (budget : Nat),
      sumEntryRows (ingestSheets store budget sheets).2 ≤ budget := by
  induction sheets with
  | nil =>
    intro store budget
    simp [ingestSheets, sumEntryRows]
  | cons sheet rest ih =>
    intro store budget
    by_cases h : budget = 0
    · simp [ingestSheets, h, sumEntryRows]
    · rw [ingestSheets]
      simp only [h, if_false]
      have htake : (sheet.rows.take budget).length ≤ budget := by
        simp [List.length_take]
      have hrec := ih (writeSheet store (sanitizeIdent sheet.name)
        (String.intercalate ", " sheet.header) (sheet.rows.take budget))
        (budget - (sheet.rows.take budget).length)
      simp only [sumEntryRows, List.map_cons, List.sum_cons] at hrec ⊢
      omega

theorem ingestSheets_preserves_names (sheets : List Sheet) :
    ∀ (store : IngestStore) (budget : Nat) (n : String),
      n ∈ tableNames store → n ∈ tableNames (ingestSheets store budget sheets).1 := by
  induction sheets with
  | nil => intro store budget n h; simpa [ingestSheets] using h
  | cons sheet rest ih =>
    intro store budget n h
    by_cases hb : budget = 0
    · simpa [ingestSheets, hb] using h
    · rw [ingestSheets]
      simp only [hb, if_false]
      apply ih
      unfold tableNames writeSheet
      simp only
      rw [mem_upsertTable_names]
      right
      exact h

theorem ingestSheets_entries_materialized (sheets : List Sheet) :
    ∀ (store : IngestStore) (budget : Nat),
      ∀ e ∈ (ingestSheets store budget sheets).2,
        e.table_name ∈ tableNames (ingestSheets store budget sheets).1 := by
  induction sheets with
  | nil => intro store budget e he; simp [ingestSheets] at he
  | cons sheet rest ih =>
    intro store budget e he
    by_cases hb : budget = 0
    · rw [ingestSheets] at he
      simp [hb] at he
    · rw [ingestSheets] at he ⊢
      simp only [hb, if_false] at he ⊢
      rcases List.mem_cons.mp he with he1 | he2
      · subst he1
        apply ingestSheets_preserves_names
        unfold tableNames writeSheet
        simp only
        rw [mem_upsertTable_names]
        left
        rfl
      · exact ih _ _ e he2

/-- C3: spec-modelled.  For every archive whose cumulative row count
exceeds the ≈2,000,000-row global cap, ingestion stops adding rows once the
cap would be exceeded (the summed ingested row counts never exceed the
cap), every produced table remains materialized in the final store (hence
queryable), and the run still responds `ok: true` with the partial table
list; in general the run reports failure iff zero tables were produced. -/
theorem ingestRun_partial_on_cap (store : IngestStore) (sheets : List Sheet)
    (hcap : totalRows sheets > INGEST_ROW_CAP) :
    sumEntryRows (ingestRun store sheets).2.tables ≤ INGEST_ROW_CAP
    ∧ (ingestRun store sheets).2.ok = true
    ∧ (∀ e ∈ (ingestRun store sheets).2.tables,
      e.table_name ∈ tableNames (ingestRun store sheets).1)
    ∧ ((ingestRun store sheets).2.ok = false ↔ (ingestRun store sheets).2.tables = []) := by
  refine ⟨?_, ?_, ?_, ?_⟩
  · exact ingestSheets_budget sheets store INGEST_ROW_CAP
  · cases sheets with
    | nil => simp [totalRows] at hcap
    | cons sheet rest =>
      unfold ingestRun
      rw [ingestSheets]
      simp [INGEST_ROW_CAP]
  · intro e he
    exact ingestSheets_entries_materialized sheets store INGEST_ROW_CAP e he
  · unfold ingestRun
    simp

/-- A single over-cap sheet used by the C3 witness. -/
def bigSheet : Sheet :=
  { name := "big", header := ["a"], rows := List.replicate (INGEST_ROW_CAP + 1) [] }

theorem ingestRun_partial_on_cap_witness :
    (ingestRun { tables := [], catalog := [] } [bigSheet]).2.ok = true :=
  (ingestRun_partial_on_cap { tables := [], catalog := [] } [bigSheet]
    (by simp [totalRows, bigSheet])).2.1

/-- The C4 invariant (spec section 3): a name is recorded in the catalog
iff a data table with that name is materialized. -/
def catalogConsistent (store : IngestStore) : Prop :=
  ∀ n : String, n ∈ catalogNames store ↔ n ∈ tableNames store

theorem writeSheet_preserves_consistent (store : IngestStore) (name columns : String)
    (rows : List SqlRow) (h : catalogConsistent store) :
    catalogConsistent (writeSheet store name columns rows) := by
  intro n
  unfold catalogNames tableNames writeSheet
  simp only
  rw [mem_upsertCatalog_names, mem_upsertTable_names]
  constructor
  · rintro (hn | hn)
    · left; exact hn
    · right; exact (h n).mp hn
  · rintro (hn | hn)
    · left; exact hn
    · right; exact (h n).mpr hn

theorem ingestSheets_preserves_consistent (sheets : List Sheet) :
    ∀ (store : IngestStore) (budget : Nat), catalogConsistent store →
      catalogConsistent (ingestSheets store budget sheets).1 := by
  induction sheets with
  | nil => intro store budget h; simpa [ingestSheets] using h
  | cons sheet rest ih =>
    intro store budget h
    by_cases hb : budget = 0
    · simpa [ingestSheets, hb] using h
    · rw [ingestSheets]
      simp only [hb, if_false]
      exact ih _ _ (writeSheet_preserves_consistent store _ _ _ h)

/-- C4: spec-modelled.  Ingestion writes each sheet's table and its catalog
row in one logical transaction, so from any store satisfying the
catalog/table consistency invariant, every completed ingestion run yields a
store in which `_catalog` records a table name iff a data table with that
name is materialized — no orphan catalog rows and no untracked tables. -/
theorem ingestRun_catalog_consistency (store : IngestStore) (sheets : List Sheet)
    (h : catalogConsistent store) :
    catalogConsistent (ingestRun store sheets).1 :=
  ingestSheets_preserves_consistent sheets store INGEST_ROW_CAP h

theorem ingestRun_catalog_consistency_witness :
    catalogConsistent
      (ingestRun { tables := [], catalog := [] }
        [{ name := "orders", header := ["Name", "Qty"], rows := [["Widget", "3"]] }]).1 :=
  ingestRun_catalog_consistency { tables := [], catalog := [] }
    [{ name := "orders", header := ["Name", "Qty"], rows := [["Widget", "3"]] }]
    (by intro n; simp [catalogNames, tableNames])
